import Mathlib

/-!
Verification development for `dev_utils/theme_builder.py`, a tool that builds
the HTML documentation of several "theme branches" of a repository against a
shared documentation source tree.

The Python source is shallowly embedded below: pure string manipulation is
translated to functions on `String` / `List Char`; the external collaborators
(GitPython and sphinx's `build_main`) are modelled as explicit inputs
(a `RepoModel` of reachable commits and diff indices, and a
`buildMain : List String → Int` stub); filesystem writes are modelled as
updates of a `String → List Char` map; exceptions are modelled with `Except`.
-/

/-! ## Generic character-list helpers (Python string primitives) -/

/-- Model of Python's `str.split(sep)` for a one-character separator:
`"a/b/c".split("/") == ["a", "b", "c"]`, `"".split("/") == [""]`. -/
def splitOnChar (sep : Char) : List Char → List (List Char)
  | [] => [[]]
  | c :: rest =>
    if c = sep then [] :: splitOnChar sep rest
    else
      match splitOnChar sep rest with
      | [] => [[c]]
      | grp :: grps => (c :: grp) :: grps

/-- Second component of `splitOnChar '/'`, i.e. Python's `s.split("/")[1]`.
(Python raises `IndexError` when there is no `"/"`; every ref the tool
handles is namespaced `remote/branch`, so the claims only use inputs with a
slash, where the embedding agrees with the source.) -/
def secondSegment (l : List Char) : List Char :=
  match splitOnChar '/' l with
  | _ :: x :: _ => x
  | _ => []

/-- Model of Python's `s.replace(sub, "", 1)`: remove the first occurrence
of `pat` (anywhere in the list, not only a trailing one). -/
def removeFirstOcc (pat : List Char) : List Char → List Char
  | [] => []
  | c :: rest =>
    if pat.isPrefixOf (c :: rest) then (c :: rest).drop pat.length
    else c :: removeFirstOcc pat rest

/-- `occursIn pat l` is true iff `pat` occurs as a contiguous sublist of `l`
(Python's `sub in s`). -/
def occursIn (pat : List Char) : List Char → Bool
  | [] => pat.isEmpty
  | c :: rest => pat.isPrefixOf (c :: rest) || occursIn pat rest

/-- The theme-branch suffix marker `"-theme"` as a character list. -/
def themeMarker : List Char := ['-', 't', 'h', 'e', 'm', 'e']

/-- `junctionFree n` says that appending the marker to `n` creates no
occurrence of the marker starting strictly before position `n.length`:
the only occurrence of `"-theme"` in `n ++ "-theme"` is the final one. -/
def junctionFree : List Char → Bool
  | [] => true
  | c :: rest => !(themeMarker.isPrefixOf ((c :: rest) ++ themeMarker)) && junctionFree rest

/-! ## Theme Registry: `ref_to_theme_name`, branch names, ref discovery -/

/-- `ThemeBuilder.ref_to_theme_name` (theme_builder.py:234-248):
`branch_ref.split("/")[1].replace("-theme", "", 1)`. -/
def refToThemeName (branchRef : String) : String :=
  String.mk (removeFirstOcc themeMarker (secondSegment branchRef.toList))

/-- The `branch_name` computed in `build_theme` (theme_builder.py:220):
`branch_ref.split("/")[1]`. -/
def branchNameOf (branchRef : String) : String :=
  String.mk (secondSegment branchRef.toList)

/-- The test in `get_theme_branch_refs` (theme_builder.py:118):
`remote_brach.name.endswith("-theme")`. -/
def isThemeRef (branchRef : String) : Bool :=
  themeMarker.isSuffixOf branchRef.toList

/-- A ref of the shape `remote/NAME-theme` built from the character list of
`NAME`; this is the shape of every valid theme branch ref. -/
def mkThemeRef (n : List Char) : String :=
  String.mk ("remote/".toList ++ n ++ themeMarker)

/-! ## VCS Adapter: `get_diff_string` (theme_builder.py:122-152)

GitPython is the external collaborator: a `RepoModel` provides, for a ref,
the list of commits `iter_commits` would enumerate (most recent first), and
for a pair of commits and a path the diff index that
`base.diff(tip, paths=file_path, create_patch=True, unified=0)` would
return. -/

/-- One GitPython `Diff` object: `changeType` is the change-type letter
(`'M'` modified, `'A'` added, `'D'` deleted, ...); `diffLines` models
`diff_item.diff.decode("utf-8").splitlines(keepends=True)`. -/
structure DiffItem where
  changeType : Char
  diffLines : List (List Char)
deriving DecidableEq

/-- Model of Python's `line.replace("+", "", 1)`: remove the first `'+'`
occurring anywhere in the line. -/
def replaceFirstPlus : List Char → List Char
  | [] => []
  | c :: rest => if c = '+' then rest else c :: replaceFirstPlus rest

/-- The loop body of `get_diff_string` (theme_builder.py:149-151): keep the
lines starting with `"+"`, strip the first `"+"` of each, and join. -/
def addedLinesStr (diffLines : List (List Char)) : List Char :=
  ((diffLines.filter (fun l => List.isPrefixOf ['+'] l)).map replaceFirstPlus).flatten

/-- `get_diff_string` after the two commits are known
(theme_builder.py:148-152): the first diff item of change type `"M"` is
processed; with no such item the function returns `""`. -/
def diffStringOfIndex (diffIndex : List DiffItem) : List Char :=
  match diffIndex.filter (fun d => d.changeType == 'M') with
  | [] => []
  | item :: _ => addedLinesStr item.diffLines

/-- The git repository as seen by `get_diff_string`: commits reachable from
a ref (most recent first) and the per-file diff index of a commit pair. -/
structure RepoModel where
  reachableCommits : String → List Nat
  diffIndex : Nat → Nat → String → List DiffItem

/-- The errors `ThemeBuilder` can raise: `InvalidThemeException`
(theme_builder.py:44-61), the `ValueError` from the tuple unpacking at
theme_builder.py:139-141 when fewer than two commits are reachable (the
spec's `HistoryTooShortError`), and the `Exception` raised at
theme_builder.py:232 when `build_main` returns non-zero. -/
inductive TBError where
  | invalidThemeError (invalidThemes validThemes : List String)
  | historyTooShortError
  | buildError
deriving DecidableEq

/-- `ThemeBuilder.get_diff_string` (theme_builder.py:122-152):
`theme_specific_commit, base_branch_commit = list(repo.iter_commits(branch_ref, max_count=2))`
fails unless exactly two commits come back, then the diff of the pair is
processed by `diffStringOfIndex`. -/
def getDiffString (repo : RepoModel) (branchRef filePath : String) :
    Except TBError (List Char) :=
  match (repo.reachableCommits branchRef).take 2 with
  | [themeSpecificCommit, baseBranchCommit] =>
    .ok (diffStringOfIndex (repo.diffIndex baseBranchCommit themeSpecificCommit filePath))
  | _ => .error .historyTooShortError

/-! ## Path constants (theme_builder.py:18-24, 74) -/

/-- `TEMP_DOC_DIR`, relative to the repository root. -/
def tempDocDir : String := "dev_utils/tmp/doc"

/-- `TEMP_BUILD_ROOT_DIR`, relative to the repository root. -/
def tempBuildRootDir : String := "dev_utils/_build"

/-- `self.shared_cache_args` (theme_builder.py:74). -/
def sharedCacheArgs : List String := ["-d", "dev_utils/tmp/shared_build_cache"]

/-- The path handed to `get_diff_string` by `update_theme_conf`
(theme_builder.py:199). -/
def gitConfPath : String := "doc/conf.py"

/-- `os.path.join(ROOT_DOC_DIR, "conf.py")`, the canonical configuration
file read by `update_theme_conf` (theme_builder.py:200). -/
def rootConfPath : String := "doc/conf.py"

/-- `os.path.join(TEMP_DOC_DIR, "conf.py")`, the staged configuration file
written by `update_theme_conf` (theme_builder.py:202). -/
def tempConfPath : String := "dev_utils/tmp/doc/conf.py"

/-! ## `update_theme_conf` (theme_builder.py:189-203)

The filesystem is a map from path to file content. -/

/-- `open(path, "w")` followed by `write(content)`. -/
def writeFile (path : String) (content : List Char) (fs : String → List Char) :
    String → List Char :=
  fun q => if q = path then content else fs q

/-- `ThemeBuilder.update_theme_conf`: extract the conf diff of the branch,
read the canonical conf, write their concatenation to the staged conf file
(previous content of the staged file is ignored: mode `"w"`). -/
def updateThemeConf (repo : RepoModel) (fs : String → List Char) (branchRef : String) :
    Except TBError (String → List Char) :=
  match getDiffString repo branchRef gitConfPath with
  | .error e => .error e
  | .ok confDiff => .ok (writeFile tempConfPath (fs rootConfPath ++ confDiff) fs)

/-! ## Theme Registry: discovery and validation
(theme_builder.py:107-120, 250-289) -/

/-- The environment of one `ThemeBuilder` run: the git model, the remote
refs `self.remote.refs` enumerates, `self.build_args`, and sphinx's
`build_main` as a black-box status function. -/
structure BuildEnv where
  repo : RepoModel
  remoteRefs : List String
  buildArgsGlobal : List String
  buildMain : List String → Int

/-- `ThemeBuilder.get_theme_branch_refs` (theme_builder.py:107-120): the
remote refs whose name ends with `"-theme"`, in enumeration order. -/
def getThemeBranchRefs (env : BuildEnv) : List String :=
  env.remoteRefs.filter isThemeRef

/-- `ThemeBuilder.get_theme_names` (theme_builder.py:250-263). -/
def getThemeNames (env : BuildEnv) : List String :=
  (getThemeBranchRefs env).map refToThemeName

/-- The collection loop of `validate_theme_list` (theme_builder.py:285-287):
append every requested name that is not a valid theme name. -/
def collectInvalid (validThemes : List String) : List String → List String
  | [] => []
  | n :: rest =>
    if n ∈ validThemes then collectInvalid validThemes rest
    else n :: collectInvalid validThemes rest

/-- `ThemeBuilder.validate_theme_list` (theme_builder.py:265-289): no-op
when `"all"` is requested, otherwise collect all invalid names and raise
`InvalidThemeException(invalid_themes, valid_themes)` when any exist. -/
def validateThemeList (validThemes themeList : List String) :
    Except (List String × List String) Unit :=
  if "all" ∈ themeList then .ok ()
  else
    if (collectInvalid validThemes themeList).length ≠ 0 then
      .error (collectInvalid validThemes themeList, validThemes)
    else .ok ()

/-! ## Build Orchestrator: `build_theme` and `build_themes`
(theme_builder.py:205-232, 291-306) -/

/-- `dest_dir = os.path.join(TEMP_BUILD_ROOT_DIR, branch_name)`
(theme_builder.py:226). -/
def destDir (branchRef : String) : String :=
  tempBuildRootDir ++ "/" ++ branchNameOf branchRef

/-- The argument list passed to `build_main` (theme_builder.py:227-230):
`[TEMP_DOC_DIR, dest_dir] + self.build_args`, plus `shared_cache_args`
unless the theme name is `"guzzle"` or `"press"`. -/
def buildThemeArgs (buildArgsGlobal : List String) (branchRef : String) : List String :=
  if refToThemeName branchRef ∈ (["guzzle", "press"] : List String) then
    [tempDocDir, destDir branchRef] ++ buildArgsGlobal
  else
    ([tempDocDir, destDir branchRef] ++ buildArgsGlobal) ++ sharedCacheArgs

/-- `ThemeBuilder.build_theme` (theme_builder.py:205-232): materialize the
theme conf (any error propagates before `build_main` is called), then call
`build_main` once and raise when the status is non-zero.  The result is
(new filesystem, `build_main` invocations, outcome). -/
def buildTheme (env : BuildEnv) (fs : String → List Char) (branchRef : String) :
    (String → List Char) × List (List String) × Except TBError Unit :=
  match updateThemeConf env.repo fs branchRef with
  | .error e => (fs, [], .error e)
  | .ok fs' =>
    if env.buildMain (buildThemeArgs env.buildArgsGlobal branchRef) = 0 then
      (fs', [buildThemeArgs env.buildArgsGlobal branchRef], .ok ())
    else
      (fs', [buildThemeArgs env.buildArgsGlobal branchRef], .error .buildError)

/-- The selection test of the loop in `build_themes`
(theme_builder.py:302-306): build iff `"all" in theme_list` or
`ref_to_theme_name(branch_ref) in theme_list`. -/
def selectedTheme (themeList : List String) (branchRef : String) : Bool :=
  decide ("all" ∈ themeList) || decide (refToThemeName branchRef ∈ themeList)

/-- The `for branch_ref in self.theme_branche_refs` loop of `build_themes`
(theme_builder.py:302-306).  There is no `try`/`except` around
`build_theme`, so any raised error leaves the loop at once. -/
def buildThemesLoop (env : BuildEnv) (themeList : List String) :
    (String → List Char) → List String →
    (String → List Char) × List (List String) × Except TBError Unit
  | fs, [] => (fs, [], .ok ())
  | fs, branchRef :: rest =>
    if selectedTheme themeList branchRef then
      match buildTheme env fs branchRef with
      | (fs', inv, .ok _) =>
        ((buildThemesLoop env themeList fs' rest).1,
          inv ++ (buildThemesLoop env themeList fs' rest).2.1,
          (buildThemesLoop env themeList fs' rest).2.2)
      | (fs', inv, .error e) => (fs', inv, .error e)
    else buildThemesLoop env themeList fs rest

instance {ε α : Type} [DecidableEq ε] [DecidableEq α] : DecidableEq (Except ε α) :=
  fun x y =>
    match x, y with
    | .ok a, .ok b =>
      if h : a = b then isTrue (by rw [h]) else isFalse (by intro he; cases he; exact h rfl)
    | .error a, .error b =>
      if h : a = b then isTrue (by rw [h]) else isFalse (by intro he; cases he; exact h rfl)
    | .ok _, .error _ => isFalse (by intro he; cases he)
    | .error _, .ok _ => isFalse (by intro he; cases he)

/-- Observable trace of one `build_themes` call: how many times
`copy_root_docs` staged the shared tree, the `build_main` argument lists in
invocation order, and the outcome. -/
structure RunResult where
  staged : Nat
  invocations : List (List String)
  outcome : Except TBError Unit
deriving DecidableEq

/-- `ThemeBuilder.build_themes` (theme_builder.py:291-306): validate,
stage the shared tree once (`copy_root_docs`), then loop over the
discovered theme branch refs. -/
def buildThemes (env : BuildEnv) (fs : String → List Char) (themeList : List String) :
    RunResult :=
  match validateThemeList (getThemeNames env) themeList with
  | .error (inv, val) => ⟨0, [], .error (.invalidThemeError inv val)⟩
  | .ok _ =>
    ⟨1, (buildThemesLoop env themeList fs (getThemeBranchRefs env)).2.1,
      (buildThemesLoop env themeList fs (getThemeBranchRefs env)).2.2⟩

/-- Whether an `Except` carries a value (the call returned normally). -/
def exceptIsOk : Except TBError (List Char) → Bool
  | .ok _ => true
  | .error _ => false

/-! ## `copy_root_docs` (theme_builder.py:175-187)

The staging directory `TEMP_DIR` is a map from entry name to entry. -/

/-- An entry of the staging directory: a file or a subtree. -/
inductive FsEntry where
  | file (content : List Char)
  | dir (entries : List (String × List Char))
deriving DecidableEq

/-- `shutil.rmtree(name, ignore_errors=True)` on one staging entry. -/
def removeTree (name : String) (d : String → Option FsEntry) :
    String → Option FsEntry :=
  fun q => if q = name then none else d q

/-- `shutil.copytree(src, name)`: a fresh copy of the source tree. -/
def copyTreeTo (name : String) (tree : List (String × List Char))
    (d : String → Option FsEntry) : String → Option FsEntry :=
  fun q => if q = name then some (.dir tree) else d q

/-- `shutil.copyfile(src, name)`: overwrite one file entry. -/
def copyFileTo (name : String) (content : List Char)
    (d : String → Option FsEntry) : String → Option FsEntry :=
  fun q => if q = name then some (.file content) else d q

/-- `ThemeBuilder.copy_root_docs` (theme_builder.py:175-187): remove the
staged `doc` subtree, copy the root `doc` tree in its place, then copy
`README.rst` and `CONTRIBUTING.rst` to the staging root. -/
def copyRootDocs (rootDocTree : List (String × List Char))
    (readme contributing : List Char) (staging : String → Option FsEntry) :
    String → Option FsEntry :=
  copyFileTo "CONTRIBUTING.rst" contributing
    (copyFileTo "README.rst" readme
      (copyTreeTo "doc" rootDocTree
        (removeTree "doc" staging)))

/-! ## `prepare_git` (theme_builder.py:76-99)

GitPython state: whether `TEMP_DIR/.git` exists, the registered remotes,
the local branches, and whether the remote refs were fetched.
`Repo.create_head(name, commit)` runs `git branch name commit` without
`--force`, which fails when the branch already exists. -/

/-- The error `git branch` reports for an existing branch, surfaced by
GitPython as a `GitCommandError`. -/
inductive GitError where
  | branchAlreadyExistsError
deriving DecidableEq

/-- The on-disk git state `prepare_git` acts on. -/
structure GitState where
  repoExists : Bool
  remotes : List String
  heads : List String
  fetched : Bool
deriving DecidableEq

/-- The fixed remote name (theme_builder.py:88). -/
def remoteName : String := "upstream_diff_repo"

/-- `ThemeBuilder.prepare_git` (theme_builder.py:76-99): open or init the
repository, create or reuse the remote, fetch when the repository was just
created, then call `create_head("master", remote.refs.master)`
unconditionally — which fails when a branch `master` already exists. -/
def prepareGit (s0 : GitState) : Except GitError GitState :=
  let fetchNeeded := !s0.repoExists
  let s1 := if s0.repoExists then s0 else { s0 with repoExists := true }
  let s2 :=
    if remoteName ∈ s1.remotes then s1
    else { s1 with remotes := remoteName :: s1.remotes }
  let s3 := if fetchNeeded then { s2 with fetched := true } else s2
  if "master" ∈ s3.heads then .error .branchAlreadyExistsError
  else .ok { s3 with heads := "master" :: s3.heads }

/-! ## Concrete instances used by the witnesses and counterexamples -/

/-- The filesystem with every file empty. -/
def emptyFs : String → List Char := fun _ => []

/-- A repository where every ref has exactly two reachable commits and
every per-file diff is empty. -/
def repoTwoCommits : RepoModel := ⟨fun _ => [1, 0], fun _ _ _ => []⟩

/-- A repository whose tip commit modified `doc/conf.py` by adding the two
lines `"X: 1\n"` and `"Y: 2\n"` (zero-context diff), and left every other
file untouched. -/
def repoC2 : RepoModel :=
  ⟨fun _ => [3, 2],
    fun _ _ p =>
      if p = "doc/conf.py" then
        [⟨'M', ["@@ -1,0 +1,2 @@\n".toList, "+X: 1\n".toList, "+Y: 2\n".toList]⟩]
      else []⟩

/-- Two themes; `build_main` fails (returns 1) for `aaa-theme` and
succeeds for every other destination. -/
def envC1 : BuildEnv :=
  { repo := repoTwoCommits
    remoteRefs := ["u/aaa-theme", "u/bbb-theme"]
    buildArgsGlobal := []
    buildMain := fun args => if (tempBuildRootDir ++ "/aaa-theme") ∈ args then 1 else 0 }

/-- Two themes; `aaa-theme` has only one reachable commit, `bbb-theme` is
healthy, and `build_main` always succeeds. -/
def envC3 : BuildEnv :=
  { repo := ⟨fun r => if r = "u/aaa-theme" then [7] else [1, 0], fun _ _ _ => []⟩
    remoteRefs := ["u/aaa-theme", "u/bbb-theme"]
    buildArgsGlobal := []
    buildMain := fun _ => 0 }

/-- Themes `classic` and `alabaster`; `build_main` fails for `classic-theme`
and succeeds for `alabaster-theme`. -/
def envC6 : BuildEnv :=
  { repo := repoTwoCommits
    remoteRefs := ["u/classic-theme", "u/alabaster-theme"]
    buildArgsGlobal := []
    buildMain := fun args => if (tempBuildRootDir ++ "/classic-theme") ∈ args then 1 else 0 }

/-- Themes `classic` and `alabaster`, every build succeeding. -/
def envC6ok : BuildEnv :=
  { repo := repoTwoCommits
    remoteRefs := ["u/classic-theme", "u/alabaster-theme"]
    buildArgsGlobal := []
    buildMain := fun _ => 0 }

/-- A canonical conf of content `"base conf\n"` with everything else empty. -/
def fsC8a : String → List Char :=
  fun p => if p = rootConfPath then "base conf\n".toList else []

/-- Same canonical conf, but a stale previously-materialized staged conf. -/
def fsC8b : String → List Char :=
  fun p => if p = rootConfPath then "base conf\n".toList else "stale\n".toList

/-- A staging directory holding only the local git mirror. -/
def stagingC10 : String → Option FsEntry :=
  fun q => if q = ".git" then some (.dir [("HEAD", "ref: master\n".toList)]) else none

/-! ## Support lemmas -/

lemma splitOnChar_of_not_mem (sep : Char) (l : List Char) (h : sep ∉ l) :
    splitOnChar sep l = [l] := by
  induction l with
  | nil => rfl
  | cons c rest ih =>
    have hc : ¬ (c = sep) := fun e => h (e ▸ List.mem_cons_self c rest)
    have hr : sep ∉ rest := fun m => h (List.mem_cons_of_mem _ m)
    simp [splitOnChar, hc, ih hr]

lemma splitOnChar_append_sep (sep : Char) (l₁ l₂ : List Char) (h : sep ∉ l₁) :
    splitOnChar sep (l₁ ++ sep :: l₂) = l₁ :: splitOnChar sep l₂ := by
  induction l₁ with
  | nil => simp [splitOnChar]
  | cons c rest ih =>
    have hc : ¬ (c = sep) := fun e => h (e ▸ List.mem_cons_self c rest)
    have hr : sep ∉ rest := fun m => h (List.mem_cons_of_mem _ m)
    simp [splitOnChar, hc, ih hr]

lemma marker_isPrefixOf_junction (s : List Char) (hs : s ≠ [])
    (h : themeMarker.isPrefixOf (s ++ themeMarker) = true) :
    occursIn themeMarker s = true := by
  have hp : themeMarker <+: (s ++ themeMarker) := List.isPrefixOf_iff_prefix.mp h
  match s, hs with
  | [a], _ =>
    rw [themeMarker] at hp
    obtain ⟨-, hp⟩ := List.cons_prefix_cons.mp hp
    obtain ⟨he, -⟩ := List.cons_prefix_cons.mp hp
    exact absurd he (by decide)
  | [a, b], _ =>
    rw [themeMarker] at hp
    obtain ⟨-, hp⟩ := List.cons_prefix_cons.mp hp
    obtain ⟨-, hp⟩ := List.cons_prefix_cons.mp hp
    obtain ⟨he, -⟩ := List.cons_prefix_cons.mp hp
    exact absurd he (by decide)
  | [a, b, c], _ =>
    rw [themeMarker] at hp
    obtain ⟨-, hp⟩ := List.cons_prefix_cons.mp hp
    obtain ⟨-, hp⟩ := List.cons_prefix_cons.mp hp
    obtain ⟨-, hp⟩ := List.cons_prefix_cons.mp hp
    obtain ⟨he, -⟩ := List.cons_prefix_cons.mp hp
    exact absurd he (by decide)
  | [a, b, c, d], _ =>
    rw [themeMarker] at hp
    obtain ⟨-, hp⟩ := List.cons_prefix_cons.mp hp
    obtain ⟨-, hp⟩ := List.cons_prefix_cons.mp hp
    obtain ⟨-, hp⟩ := List.cons_prefix_cons.mp hp
    obtain ⟨-, hp⟩ := List.cons_prefix_cons.mp hp
    obtain ⟨he, -⟩ := List.cons_prefix_cons.mp hp
    exact absurd he (by decide)
  | [a, b, c, d, e], _ =>
    rw [themeMarker] at hp
    obtain ⟨-, hp⟩ := List.cons_prefix_cons.mp hp
    obtain ⟨-, hp⟩ := List.cons_prefix_cons.mp hp
    obtain ⟨-, hp⟩ := List.cons_prefix_cons.mp hp
    obtain ⟨-, hp⟩ := List.cons_prefix_cons.mp hp
    obtain ⟨-, hp⟩ := List.cons_prefix_cons.mp hp
    obtain ⟨he, -⟩ := List.cons_prefix_cons.mp hp
    exact absurd he (by decide)
  | a :: b :: c :: d :: e :: f :: rest, _ =>
    rw [themeMarker] at hp
    obtain ⟨h1, hp⟩ := List.cons_prefix_cons.mp hp
    obtain ⟨h2, hp⟩ := List.cons_prefix_cons.mp hp
    obtain ⟨h3, hp⟩ := List.cons_prefix_cons.mp hp
    obtain ⟨h4, hp⟩ := List.cons_prefix_cons.mp hp
    obtain ⟨h5, hp⟩ := List.cons_prefix_cons.mp hp
    obtain ⟨h6, -⟩ := List.cons_prefix_cons.mp hp
    subst h1; subst h2; subst h3; subst h4; subst h5; subst h6
    simp [occursIn, themeMarker, List.isPrefixOf]

lemma junctionFree_of_not_occursIn (n : List Char)
    (h : occursIn themeMarker n = false) : junctionFree n = true := by
  induction n with
  | nil => rfl
  | cons c rest ih =>
    simp only [occursIn, Bool.or_eq_false_iff] at h
    obtain ⟨h1, h2⟩ := h
    simp only [junctionFree, Bool.and_eq_true, Bool.not_eq_true', ih h2, and_true]
    cases hp : themeMarker.isPrefixOf ((c :: rest) ++ themeMarker) with
    | false => rfl
    | true =>
      have := marker_isPrefixOf_junction (c :: rest) (by simp) hp
      simp only [occursIn, h1, h2, Bool.or_self] at this
      exact absurd this (by decide)

lemma removeFirstOcc_append_marker (n : List Char) (h : junctionFree n = true) :
    removeFirstOcc themeMarker (n ++ themeMarker) = n := by
  induction n with
  | nil => decide
  | cons c rest ih =>
    simp only [junctionFree, Bool.and_eq_true, Bool.not_eq_true'] at h
    obtain ⟨h1, h2⟩ := h
    show removeFirstOcc themeMarker (c :: (rest ++ themeMarker)) = c :: rest
    rw [removeFirstOcc]
    simp only [show c :: (rest ++ themeMarker) = (c :: rest) ++ themeMarker from rfl, h1]
    simp [ih h2]

lemma refToThemeName_mkThemeRef (n : List Char) (hocc : occursIn themeMarker n = false)
    (hsl : '/' ∉ n) : refToThemeName (mkThemeRef n) = String.mk n := by
  have hmem : '/' ∉ n ++ themeMarker := by
    intro hm
    rcases List.mem_append.mp hm with h | h
    · exact hsl h
    · exact absurd h (by decide)
  unfold refToThemeName mkThemeRef
  congr 1
  have hsplit : (String.mk ("remote/".toList ++ n ++ themeMarker)).toList
      = "remote".toList ++ '/' :: (n ++ themeMarker) := by simp
  rw [hsplit]
  unfold secondSegment
  rw [splitOnChar_append_sep _ _ _ (by decide), splitOnChar_of_not_mem _ _ hmem]
  show removeFirstOcc themeMarker (n ++ themeMarker) = n
  exact removeFirstOcc_append_marker n (junctionFree_of_not_occursIn n hocc)

/-! ## Claim C4 — `ref_to_theme_name` -/

/-- C4, refuting counterexample: `ref_to_theme_name` removes the FIRST
occurrence of `"-theme"`, not the trailing suffix marker, so the two
distinct valid theme branch refs `remote/a-theme-b-theme` (theme name
`a-theme-b`) and `remote/a-b-theme-theme` (theme name `a-b-theme`) both
map to `"a-b-theme"`: the function is not injective over valid theme
branch names, and does not return `NAME` for `remote/NAME-theme`. -/
theorem claimC4_counterexample :
    isThemeRef "remote/a-theme-b-theme" = true ∧
    isThemeRef "remote/a-b-theme-theme" = true ∧
    ("remote/a-theme-b-theme" : String) ≠ "remote/a-b-theme-theme" ∧
    refToThemeName "remote/a-theme-b-theme" = refToThemeName "remote/a-b-theme-theme" ∧
    refToThemeName "remote/a-theme-b-theme" ≠ "a-theme-b" := by decide

/-- C4 (amended): `ref_to_theme_name` is a pure deterministic function
(a plain function of its argument in this embedding); for every ref
`remote/NAME-theme` whose `NAME` contains no `'/'` and no `"-theme"`
substring it returns `NAME`, and it is injective over that restricted set
of refs.  (Without the `"-theme"`-free restriction both parts fail, see
the counterexample: the code removes the first `"-theme"` occurrence.) -/
theorem claimC4_amended (n m : List Char)
    (hn : occursIn themeMarker n = false) (hns : '/' ∉ n)
    (hm : occursIn themeMarker m = false) (hms : '/' ∉ m) :
    refToThemeName (mkThemeRef n) = String.mk n ∧
    (refToThemeName (mkThemeRef n) = refToThemeName (mkThemeRef m) → n = m) := by
  refine ⟨refToThemeName_mkThemeRef n hn hns, fun he => ?_⟩
  rw [refToThemeName_mkThemeRef n hn hns, refToThemeName_mkThemeRef m hm hms] at he
  exact congrArg String.toList he

/-- C4 witness: the amended theorem applied to the refs `remote/foo-theme`
and `remote/bar-theme`. -/
theorem claimC4_witness :
    refToThemeName (mkThemeRef "foo".toList) = String.mk "foo".toList ∧
    (refToThemeName (mkThemeRef "foo".toList) = refToThemeName (mkThemeRef "bar".toList) →
      "foo".toList = "bar".toList) := by
  have h := claimC4_amended "foo".toList "bar".toList (by decide) (by decide)
    (by decide) (by decide)
  exact ⟨h.1, h.2⟩

lemma replaceFirstPlus_of_plus (l : List Char) (h : List.isPrefixOf ['+'] l = true) :
    replaceFirstPlus l = l.drop 1 := by
  cases l with
  | nil => simp [List.isPrefixOf] at h
  | cons c t =>
    have hc : c = '+' := by
      simp [List.isPrefixOf] at h
      exact h.symm
    subst hc
    simp [replaceFirstPlus]

/-! ## Claim C2 — `get_diff_string` extracts exactly the added lines -/

/-- C2: for every theme ref (with its two most recent commits available)
and file path, `get_diff_string` returns the empty string when the file is
unmodified between the two commits (empty diff index), and for a modified
file (one diff item of change type `M`) returns exactly the concatenation,
in diff order, of the added-line bodies of the zero-context diff, with the
leading `"+"` stripped from each line and no removed or context lines
included. -/
theorem claimC2 (repo : RepoModel) (branchRef filePath : String)
    (tip base : Nat) (rest : List Nat)
    (hc : repo.reachableCommits branchRef = tip :: base :: rest) :
    (repo.diffIndex base tip filePath = [] →
      getDiffString repo branchRef filePath = .ok []) ∧
    (∀ lines : List (List Char),
      repo.diffIndex base tip filePath = [⟨'M', lines⟩] →
      getDiffString repo branchRef filePath =
        .ok (((lines.filter (fun l => List.isPrefixOf ['+'] l)).map
          (fun l => l.drop 1)).flatten)) := by
  have hunfold : getDiffString repo branchRef filePath =
      .ok (diffStringOfIndex (repo.diffIndex base tip filePath)) := by
    unfold getDiffString
    rw [hc]
    rfl
  constructor
  · intro hempty; rw [hunfold, hempty]; rfl
  · intro lines hM
    rw [hunfold, hM]
    show Except.ok (addedLinesStr lines) = _
    congr 1
    unfold addedLinesStr
    congr 1
    apply List.map_congr_left
    intro l hl
    exact replaceFirstPlus_of_plus l (List.of_mem_filter hl)

/-- C2 witness: on `repoC2`, the unmodified `doc/requirements.txt` yields
the empty string, and `doc/conf.py` — whose tip commit added exactly
`"X: 1\n"` and `"Y: 2\n"` — yields `"X: 1\nY: 2\n"`, markers stripped,
hunk header and context excluded. -/
theorem claimC2_witness :
    getDiffString repoC2 "u/aaa-theme" "doc/requirements.txt" = .ok [] ∧
    getDiffString repoC2 "u/aaa-theme" "doc/conf.py" = .ok "X: 1\nY: 2\n".toList := by
  have h1 := claimC2 repoC2 "u/aaa-theme" "doc/requirements.txt" 3 2 [] rfl
  have h2 := claimC2 repoC2 "u/aaa-theme" "doc/conf.py" 3 2 [] rfl
  refine ⟨h1.1 rfl, ?_⟩
  have h3 := h2.2 ["@@ -1,0 +1,2 @@\n".toList, "+X: 1\n".toList, "+Y: 2\n".toList] rfl
  rw [h3]
  congr 1

lemma mem_collectInvalid (validThemes : List String) (l : List String) (m : String) :
    m ∈ collectInvalid validThemes l ↔ (m ∈ l ∧ m ∉ validThemes) := by
  induction l with
  | nil => simp [collectInvalid]
  | cons n rest ih =>
    by_cases hn : n ∈ validThemes
    · simp only [collectInvalid, if_pos hn, ih, List.mem_cons]
      constructor
      · rintro ⟨hm, hv⟩
        exact ⟨Or.inr hm, hv⟩
      · rintro ⟨hor, hv⟩
        rcases hor with he | hm
        · exact absurd (he ▸ hn) hv
        · exact ⟨hm, hv⟩
    · simp only [collectInvalid, if_neg hn, List.mem_cons, ih]
      constructor
      · rintro (he | ⟨hm, hv⟩)
        · exact ⟨Or.inl he, he ▸ hn⟩
        · exact ⟨Or.inr hm, hv⟩
      · rintro ⟨hor, hv⟩
        rcases hor with he | hm
        · exact Or.inl he
        · exact Or.inr ⟨hm, hv⟩

lemma collectInvalid_eq_nil (validThemes l : List String)
    (h : ∀ n ∈ l, n ∈ validThemes) : collectInvalid validThemes l = [] := by
  rw [List.eq_nil_iff_forall_not_mem]
  intro m hm
  rw [mem_collectInvalid] at hm
  exact hm.2 (h m hm.1)

/-! ## Claim C5 — `validate_theme_list` -/

/-- C5: when the requested list contains the sentinel `"all"`,
`validate_theme_list` never fails, for every valid-name set including the
empty one; otherwise it succeeds when every requested name is valid and
fails as soon as some requested name is absent, and the raised
`InvalidThemeException` carries every absent requested name (membership in
the carried `invalid` list is equivalent to being a requested absent name)
together with the full valid-name set. -/
theorem claimC5 (validThemes themeList : List String) :
    ("all" ∈ themeList → validateThemeList validThemes themeList = .ok ()) ∧
    ("all" ∉ themeList →
      ((∀ n ∈ themeList, n ∈ validThemes) →
        validateThemeList validThemes themeList = .ok ()) ∧
      ((∃ n ∈ themeList, n ∉ validThemes) →
        validateThemeList validThemes themeList =
          .error (collectInvalid validThemes themeList, validThemes) ∧
        ∀ m, m ∈ collectInvalid validThemes themeList ↔
          (m ∈ themeList ∧ m ∉ validThemes))) := by
  refine ⟨fun h => by simp [validateThemeList, h], fun h => ⟨fun hall => ?_, fun hex => ?_⟩⟩
  · have hnil : collectInvalid validThemes themeList = [] :=
      collectInvalid_eq_nil validThemes themeList hall
    simp [validateThemeList, h, hnil]
  · obtain ⟨n, hn, hnv⟩ := hex
    have hne : collectInvalid validThemes themeList ≠ [] := by
      intro he
      have hmem := (mem_collectInvalid validThemes themeList n).mpr ⟨hn, hnv⟩
      rw [he] at hmem
      exact absurd hmem (List.not_mem_nil n)
    have hlen : (collectInvalid validThemes themeList).length ≠ 0 := by
      simpa [List.length_eq_zero] using hne
    exact ⟨by simp [validateThemeList, h, hlen],
      fun m => mem_collectInvalid validThemes themeList m⟩

/-- C5 witness: `validate_theme_list` of `["all"]` succeeds on the empty
registry, and `["nonexistent"]` against `{classic, alabaster}` fails with
exactly the absent name and the full valid set. -/
theorem claimC5_witness :
    validateThemeList [] ["all"] = .ok () ∧
    validateThemeList ["classic", "alabaster"] ["nonexistent"] =
      .error (["nonexistent"], ["classic", "alabaster"]) := by
  refine ⟨(claimC5 [] ["all"]).1 (by decide), ?_⟩
  have h := ((claimC5 ["classic", "alabaster"] ["nonexistent"]).2 (by decide)).2
    ⟨"nonexistent", by decide, by decide⟩
  exact h.1

lemma destDir_ne_dashD (branchRef : String) : destDir branchRef ≠ "-d" := by
  intro he
  have hl := congrArg String.length he
  simp only [destDir, String.length_append] at hl
  rw [show tempBuildRootDir.length = 16 from rfl,
    show ("/" : String).length = 1 from rfl,
    show ("-d" : String).length = 2 from rfl] at hl
  omega

/-! ## Claim C7 — shared-cache deny-list -/

/-- C7: as long as the global build arguments do not themselves contain
`"-d"` (in the source they are `[]` or `["-a"]`), the argument list passed
to `build_main` contains the shared-cache argument pair exactly when the
theme's short name is not in the fixed deny-list `{guzzle, press}`. -/
theorem claimC7 (buildArgsGlobal : List String) (branchRef : String)
    (hd : "-d" ∉ buildArgsGlobal) :
    sharedCacheArgs <:+: buildThemeArgs buildArgsGlobal branchRef ↔
      refToThemeName branchRef ∉ (["guzzle", "press"] : List String) := by
  by_cases hden : refToThemeName branchRef ∈ (["guzzle", "press"] : List String)
  · rw [buildThemeArgs, if_pos hden]
    constructor
    · intro hinf
      exfalso
      have hmem : "-d" ∈ [tempDocDir, destDir branchRef] ++ buildArgsGlobal :=
        hinf.subset (by decide)
      rcases List.mem_append.mp hmem with hm | hm
      · rcases List.mem_cons.mp hm with he | hm2
        · exact absurd he (by decide)
        · rcases List.mem_cons.mp hm2 with he | hm3
          · exact destDir_ne_dashD branchRef he.symm
          · exact absurd hm3 (List.not_mem_nil _)
      · exact hd hm
    · intro hcon
      exact absurd hden hcon
  · rw [buildThemeArgs, if_neg hden]
    constructor
    · intro _
      exact hden
    · intro _
      exact (List.suffix_append _ _).isInfix

/-- C7 witness: `classic` (not deny-listed) receives the shared-cache pair,
`guzzle` (deny-listed) does not. -/
theorem claimC7_witness :
    sharedCacheArgs <:+: buildThemeArgs [] "u/classic-theme" ∧
    ¬ sharedCacheArgs <:+: buildThemeArgs [] "u/guzzle-theme" := by
  constructor
  · exact (claimC7 [] "u/classic-theme" (by decide)).mpr (by decide)
  · intro h
    exact ((claimC7 [] "u/guzzle-theme" (by decide)).mp h) (by decide)

/-! ## Claim C8 — `update_theme_conf` -/

/-- C8: for every theme ref whose conf diff extraction succeeds,
`update_theme_conf` writes to the staged configuration file exactly the
canonical configuration content concatenated with the extracted conf diff,
touches no other path, and the written content is the same for any two
filesystems agreeing on the canonical configuration — in particular it is
independent of whatever a previously built theme left in the staged file
(the file is opened in mode `"w"` and overwritten). -/
theorem claimC8 (repo : RepoModel) (branchRef : String) (d : List Char)
    (fs₁ fs₂ : String → List Char)
    (hd : getDiffString repo branchRef gitConfPath = .ok d)
    (hroot : fs₁ rootConfPath = fs₂ rootConfPath) :
    ∃ g₁ g₂, updateThemeConf repo fs₁ branchRef = .ok g₁ ∧
      updateThemeConf repo fs₂ branchRef = .ok g₂ ∧
      g₁ tempConfPath = fs₁ rootConfPath ++ d ∧
      g₂ tempConfPath = g₁ tempConfPath ∧
      (∀ p, p ≠ tempConfPath → g₁ p = fs₁ p) := by
  refine ⟨writeFile tempConfPath (fs₁ rootConfPath ++ d) fs₁,
    writeFile tempConfPath (fs₂ rootConfPath ++ d) fs₂, ?_, ?_, ?_, ?_, ?_⟩
  · unfold updateThemeConf
    rw [hd]
  · unfold updateThemeConf
    rw [hd]
  · simp [writeFile]
  · simp [writeFile, hroot]
  · intro p hp
    simp [writeFile, hp]

/-- C8 witness: materializing against a clean staged tree (`fsC8a`) and
against one holding a stale previously-materialized conf (`fsC8b`)
produces the same staged configuration, namely the canonical conf followed
by the theme's added lines. -/
theorem claimC8_witness :
    ∃ g₁ g₂, updateThemeConf repoC2 fsC8a "u/aaa-theme" = .ok g₁ ∧
      updateThemeConf repoC2 fsC8b "u/aaa-theme" = .ok g₂ ∧
      g₁ tempConfPath = fsC8a rootConfPath ++ "X: 1\nY: 2\n".toList ∧
      g₂ tempConfPath = g₁ tempConfPath ∧
      (∀ p, p ≠ tempConfPath → g₁ p = fsC8a p) :=
  claimC8 repoC2 "u/aaa-theme" "X: 1\nY: 2\n".toList fsC8a fsC8b rfl rfl

/-! ## Claim C9 — `prepare_git` is not re-run safe -/

/-- C9: the first run of `prepare_git` on a fresh directory succeeds,
initializing the repository, registering the remote, fetching and creating
the `master` branch; but the second run on the state the first one left
behind FAILS, because `create_head("master", ...)` is called
unconditionally (theme_builder.py:99) and `git branch` refuses to create a
branch that already exists.  The claim's "creates the local base branch
only if such a branch does not already exist, never failing on a second
invocation" describes the evident intent (the function checks for an
existing repository and an existing remote precisely to support re-runs)
but not the code. -/
theorem claimC9_code_bug :
    prepareGit ⟨false, [], [], false⟩ =
      .ok ⟨true, [remoteName], ["master"], true⟩ ∧
    prepareGit ⟨true, [remoteName], ["master"], true⟩ =
      .error .branchAlreadyExistsError := by
  constructor <;> rfl

/-! ## Claim C10 — `copy_root_docs` frame effect -/

/-- C10: `copy_root_docs` replaces the staged `doc` subtree with a fresh
copy of the root `doc` tree (independent of the subtree's prior state),
overwrites the two root-level ancillary files `README.rst` and
`CONTRIBUTING.rst`, and leaves every other entry of the staging directory
— in particular the local git mirror at its root — unchanged. -/
theorem claimC10 (rootDocTree : List (String × List Char))
    (readme contributing : List Char) (staging : String → Option FsEntry) :
    (∀ name, name ≠ "doc" → name ≠ "README.rst" → name ≠ "CONTRIBUTING.rst" →
      copyRootDocs rootDocTree readme contributing staging name = staging name) ∧
    copyRootDocs rootDocTree readme contributing staging "doc" = some (.dir rootDocTree) ∧
    copyRootDocs rootDocTree readme contributing staging "README.rst" = some (.file readme) ∧
    copyRootDocs rootDocTree readme contributing staging "CONTRIBUTING.rst" =
      some (.file contributing) := by
  refine ⟨fun name h1 h2 h3 => ?_, rfl, rfl, rfl⟩
  simp [copyRootDocs, copyFileTo, copyTreeTo, removeTree, h1, h2, h3]

/-- C10 witness: staging leaves the `.git` entry of the staging directory
untouched. -/
theorem claimC10_witness :
    copyRootDocs [] [] [] stagingC10 ".git" = stagingC10 ".git" :=
  (claimC10 [] [] [] stagingC10).1 ".git" (by decide) (by decide) (by decide)

/-! ## Claim C1 — failures are NOT caught by `build_themes` -/

/-- C1, refuting counterexample: with `build_themes(["all"])` on two themes
where the build tool returns the non-zero, non-interruption status 1 for
`aaa-theme` and 0 for `bbb-theme`, the loop does NOT continue: the build
tool is invoked only for `aaa-theme` (the subsequently enumerated,
selected, healthy `bbb-theme` is never invoked) and the raised error
propagates out of `build_themes`.  There is no `try`/`except` in the
source loop (theme_builder.py:302-306). -/
theorem claimC1_counterexample :
    selectedTheme ["all"] "u/bbb-theme" = true ∧
    buildThemes envC1 emptyFs ["all"] =
      ⟨1, [buildThemeArgs [] "u/aaa-theme"], .error .buildError⟩ ∧
    buildThemeArgs [] "u/bbb-theme" ∉
      (buildThemes envC1 emptyFs ["all"]).invocations := by
  refine ⟨rfl, rfl, by decide⟩

/-- C1 (amended): whenever the build tool reports ANY non-zero status for a
selected theme, `build_theme` raises, nothing catches the error, and the
loop aborts at once: no later theme — whatever its status would have been —
is invoked.  The code cannot distinguish an interruption from any other
failure (sphinx's `build_main` converts `KeyboardInterrupt` into a
non-zero return, see the docstring at theme_builder.py:214-218), so every
failure aborts the remaining loop, not only interruptions. -/
theorem claimC1_amended (env : BuildEnv) (themeList : List String)
    (fs fs' : String → List Char) (branchRef : String) (rest : List String)
    (hsel : selectedTheme themeList branchRef = true)
    (hconf : updateThemeConf env.repo fs branchRef = .ok fs')
    (hfail : env.buildMain (buildThemeArgs env.buildArgsGlobal branchRef) ≠ 0) :
    buildThemesLoop env themeList fs (branchRef :: rest) =
      (fs', [buildThemeArgs env.buildArgsGlobal branchRef], .error .buildError) := by
  rw [buildThemesLoop, hsel]
  simp only [if_true]
  rw [buildTheme, hconf]
  simp [hfail]

/-- C1 witness: the amended theorem applied to `envC1` — the failing
`aaa-theme` is invoked, the loop aborts, the pending `bbb-theme` tail is
discarded. -/
theorem claimC1_witness :
    buildThemesLoop envC1 ["all"] emptyFs ["u/aaa-theme", "u/bbb-theme"] =
      (writeFile tempConfPath (emptyFs rootConfPath ++ []) emptyFs,
        [buildThemeArgs [] "u/aaa-theme"], .error .buildError) :=
  claimC1_amended envC1 ["all"] emptyFs _ "u/aaa-theme" ["u/bbb-theme"]
    (by decide) rfl (by decide)

/-! ## Claim C3 — `HistoryTooShortError` aborts the whole run -/

/-- C3, refuting counterexample: on `envC3` — where the selected
`aaa-theme` has a single reachable commit and the later `bbb-theme` is
healthy (two commits, succeeding build) — `build_themes(["all"])` raises
the history error and invokes the build tool for NO theme at all: the
error is not confined to `aaa-theme`'s build, contradicting "a build
failure for that theme alone". -/
theorem claimC3_counterexample :
    selectedTheme ["all"] "u/bbb-theme" = true ∧
    (envC3.repo.reachableCommits "u/bbb-theme").length = 2 ∧
    buildThemes envC3 emptyFs ["all"] = ⟨1, [], .error .historyTooShortError⟩ := by
  refine ⟨rfl, rfl, rfl⟩

/-- C3 (amended): for every ref from which fewer than two commits are
reachable, `get_diff_string` fails (the tuple unpacking at
theme_builder.py:139-141; the spec's `HistoryTooShortError`) for every
file path; and when such a ref is selected, the error propagates uncaught
through `update_theme_conf` and `build_theme` and aborts the remaining
`build_themes` loop — it is NOT fatal for that theme's build alone. -/
theorem claimC3_amended (repo : RepoModel) (branchRef filePath : String)
    (hshort : (repo.reachableCommits branchRef).length < 2) :
    getDiffString repo branchRef filePath = .error .historyTooShortError ∧
    ∀ (env : BuildEnv) (themeList : List String) (fs : String → List Char)
      (rest : List String),
      env.repo = repo → selectedTheme themeList branchRef = true →
      buildThemesLoop env themeList fs (branchRef :: rest) =
        (fs, [], .error .historyTooShortError) := by
  have hgen : ∀ p : String, getDiffString repo branchRef p = .error .historyTooShortError := by
    intro p
    rcases hl : repo.reachableCommits branchRef with _ | ⟨a, _ | ⟨b, r⟩⟩
    · unfold getDiffString
      rw [hl]
      rfl
    · unfold getDiffString
      rw [hl]
      rfl
    · rw [hl] at hshort
      simp only [List.length_cons] at hshort
      omega
  refine ⟨hgen filePath, fun env themeList fs rest henv hsel => ?_⟩
  rw [buildThemesLoop, hsel]
  simp only [if_true]
  rw [buildTheme]
  rw [show updateThemeConf env.repo fs branchRef = .error .historyTooShortError from by
    unfold updateThemeConf
    rw [henv, hgen gitConfPath]]

/-- C3 witness: the amended theorem applied to `envC3`: the diff extraction
of the one-commit `aaa-theme` fails, and the loop aborts before the
healthy `bbb-theme`. -/
theorem claimC3_witness :
    getDiffString envC3.repo "u/aaa-theme" "doc/conf.py" = .error .historyTooShortError ∧
    buildThemesLoop envC3 ["all"] emptyFs ["u/aaa-theme", "u/bbb-theme"] =
      (emptyFs, [], .error .historyTooShortError) := by
  have h := claimC3_amended envC3.repo "u/aaa-theme" "doc/conf.py" (by decide)
  exact ⟨h.1, h.2 envC3 ["all"] emptyFs ["u/bbb-theme"] rfl (by decide)⟩

/-! ## Claim C6 — `build_themes` stages once and builds the selected refs -/

lemma buildThemesLoop_allOk (env : BuildEnv) (themeList : List String) :
    ∀ (refs : List String) (fs : String → List Char),
      (∀ r ∈ refs, selectedTheme themeList r = true →
        exceptIsOk (getDiffString env.repo r gitConfPath) = true ∧
        env.buildMain (buildThemeArgs env.buildArgsGlobal r) = 0) →
      ∃ fsF, buildThemesLoop env themeList fs refs =
        (fsF, (refs.filter (selectedTheme themeList)).map (buildThemeArgs env.buildArgsGlobal),
          .ok ()) := by
  intro refs
  induction refs with
  | nil => exact fun fs _ => ⟨fs, rfl⟩
  | cons r rest ih =>
    intro fs h
    by_cases hsel : selectedTheme themeList r = true
    · obtain ⟨hdiff, hb⟩ := h r (List.mem_cons_self r rest) hsel
      cases hx : getDiffString env.repo r gitConfPath with
      | error e =>
        rw [hx] at hdiff
        simp [exceptIsOk] at hdiff
      | ok d =>
        have hconf : updateThemeConf env.repo fs r =
            .ok (writeFile tempConfPath (fs rootConfPath ++ d) fs) := by
          unfold updateThemeConf
          rw [hx]
        obtain ⟨fsF, hrec⟩ := ih (writeFile tempConfPath (fs rootConfPath ++ d) fs)
          (fun x hx hs => h x (List.mem_cons_of_mem r hx) hs)
        refine ⟨fsF, ?_⟩
        rw [buildThemesLoop, hsel]
        simp only [if_true]
        rw [buildTheme, hconf]
        simp [hb, hrec, List.filter_cons, hsel]
    · have hsel' : selectedTheme themeList r = false := by
        simpa using hsel
      obtain ⟨fsF, hrec⟩ := ih fs (fun x hx hs => h x (List.mem_cons_of_mem r hx) hs)
      refine ⟨fsF, ?_⟩
      rw [buildThemesLoop, hsel']
      simp only [Bool.false_eq_true, if_false]
      rw [hrec]
      simp [List.filter_cons, hsel']

/-- C6, refuting counterexample: with both `classic` and `alabaster`
requested and selected, but the build of the earlier-enumerated `classic`
failing, the build tool is invoked once for `classic` and NEVER for the
selected `alabaster` — so "invoked exactly once per discovered theme ref
that is selected" does not hold of every run. -/
theorem claimC6_counterexample :
    selectedTheme ["classic", "alabaster"] "u/alabaster-theme" = true ∧
    buildThemes envC6 emptyFs ["classic", "alabaster"] =
      ⟨1, [buildThemeArgs [] "u/classic-theme"], .error .buildError⟩ ∧
    buildThemeArgs [] "u/alabaster-theme" ∉
      (buildThemes envC6 emptyFs ["classic", "alabaster"]).invocations := by
  refine ⟨rfl, rfl, by decide⟩

/-- C6 (amended): for every run of `build_themes(requested_names)`,
validation happens first (a validation error yields zero stagings and zero
invocations); after successful validation the shared tree is staged
exactly once, and — provided every selected theme's diff extraction and
build succeed — the build tool is invoked exactly once per discovered
theme ref that is selected (selected iff `"all"` is requested or the short
name is a member), in ref-enumeration order and never for an unselected
theme.  (Without the all-selected-builds-succeed proviso the statement
fails: an earlier failure aborts the remaining invocations, see the
counterexample.) -/
theorem claimC6_amended (env : BuildEnv) (fs : String → List Char)
    (themeList : List String) :
    (∀ inv val, validateThemeList (getThemeNames env) themeList = .error (inv, val) →
      buildThemes env fs themeList = ⟨0, [], .error (.invalidThemeError inv val)⟩) ∧
    (validateThemeList (getThemeNames env) themeList = .ok () →
      (∀ r ∈ getThemeBranchRefs env, selectedTheme themeList r = true →
        exceptIsOk (getDiffString env.repo r gitConfPath) = true ∧
        env.buildMain (buildThemeArgs env.buildArgsGlobal r) = 0) →
      buildThemes env fs themeList =
        ⟨1, ((getThemeBranchRefs env).filter (selectedTheme themeList)).map
          (buildThemeArgs env.buildArgsGlobal), .ok ()⟩) := by
  constructor
  · intro inv val hv
    unfold buildThemes
    rw [hv]
  · intro hv hok
    obtain ⟨fsF, hloop⟩ := buildThemesLoop_allOk env themeList (getThemeBranchRefs env) fs hok
    unfold buildThemes
    rw [hv, hloop]

/-- C6 witness: `build_themes(["classic"])` against themes
`{classic, alabaster}` stages once and invokes the build tool exactly
once, for `classic`, never for `alabaster`. -/
theorem claimC6_witness :
    buildThemes envC6ok emptyFs ["classic"] =
      ⟨1, [buildThemeArgs [] "u/classic-theme"], .ok ()⟩ :=
  (claimC6_amended envC6ok emptyFs ["classic"]).2 rfl (by decide)
